import Mathlib

/-!
Verification development for the ROMP v1 network definition
(`simple_romp/romp/model.py`).  The layer structure of the network is
embedded as a small datatype of tensor operators with a shape semantics,
and the numeric parts that the verified properties depend on
(coordinate-map generation, input normalisation, the camera-scale
transform, batch-normalisation statistics) are embedded value-level,
with exact rational or real arithmetic in place of floating point.
-/

/- Four-dimensional tensor shapes: (batch, channel, height, width), or for
   the network input (batch, height, width, channel). -/
structure Shape where
  d0 : Nat
  d1 : Nat
  d2 : Nat
  d3 : Nat
  deriving DecidableEq

/- Value-level 4-d tensor over a value type: dimensions plus an entry
   function (entries outside the dimensions are irrelevant). -/
structure Tensor4 (α : Type) where
  d0 : Nat
  d1 : Nat
  d2 : Nat
  d3 : Nat
  data : Nat → Nat → Nat → Nat → α

def Tensor4.shape {α : Type} (t : Tensor4 α) : Shape := ⟨t.d0, t.d1, t.d2, t.d3⟩

/- Value-level 5-d tensor, used for the unsqueeze/transpose/squeeze chain
   of `BHWC_to_BCHW`. -/
structure Tensor5 (α : Type) where
  e0 : Nat
  e1 : Nat
  e2 : Nat
  e3 : Nat
  e4 : Nat
  data : Nat → Nat → Nat → Nat → Nat → α

/- `get_coord_maps` (model.py lines 8-37), value level.  The torch int32
   tensors become ℤ and the `.float()` cast becomes ℚ.  `xx_ones` is the
   (1, size, 1) all-ones tensor (row r, contraction index k), `xx_range`
   the (1, 1, size) arange row (contraction index k, column c); their
   batched matrix product `xx_channel`, contracted over the length-one
   middle dimension, has entry (r, c) equal to the column index c.
   Symmetrically `yy_channel` has entry (r, c) equal to the row index r. -/
def xx_ones (size r k : Nat) : ℤ := 1

def xx_range (size k c : Nat) : ℤ := (c : ℤ)

def xx_channel (size r c : Nat) : ℤ :=
  Finset.sum (Finset.range 1) (fun k => xx_ones size r k * xx_range size k c)

def yy_ones (size k c : Nat) : ℤ := 1

def yy_range (size r k : Nat) : ℤ := (r : ℤ)

def yy_channel (size r c : Nat) : ℤ :=
  Finset.sum (Finset.range 1) (fun k => yy_range size r k * yy_ones size k c)

/- The divisor `size - 1` of the normalisation `xx_channel.float() / (size - 1)`,
   computed as in Python over the integers (so `size = 1` yields zero). -/
def coordDivisor (size : Nat) : ℚ := (size : ℚ) - 1

/- `xx_channel.float() / (size - 1)` followed by `* 2 - 1` (lines 30-34). -/
def xx_norm (size r c : Nat) : ℚ :=
  ((xx_channel size r c : ℤ) : ℚ) / coordDivisor size * 2 - 1

def yy_norm (size r c : Nat) : ℚ :=
  ((yy_channel size r c : ℤ) : ℚ) / coordDivisor size * 2 - 1

/- The returned map: both channels are permuted to (1, 1, size, size) and
   concatenated along dimension 1, giving shape (1, 2, size, size); entry
   (0, ch, r, c) is the normalised column index for ch = 0 and the
   normalised row index for ch = 1. -/
def get_coord_maps (size : Nat) : Tensor4 ℚ :=
  ⟨1, 2, size, size, fun _b ch r c =>
    if ch < 1 then xx_norm size r c else yy_norm size r c⟩

/- ----------------------------------------------------------------------
   Layer structure.  Every `nn.Module` built by model.py is embedded as a
   term of the `Layer` datatype; `nn.Sequential(*ls)` becomes `seqLayers ls`
   (sequential composition).  A residual block's trailing `out += residual;
   out = relu(out)` is captured by the `residual` / `residualId`
   constructors (with and without a downsample projection).  The shape
   semantics `runShape` propagates (batch, channel, height, width) shapes
   exactly as torch does, returning `none` where torch would raise
   (channel mismatch, too-small spatial input, mismatched residual add). -/
inductive Layer where
  | conv2d (inC outC kernel stride padding : Nat) (bias : Bool)
  | batchNorm (ch : Nat)
  | relu
  | upsample (factor : Nat)
  | empty
  | comp (a b : Layer)
  | residual (main down : Layer)
  | residualId (main : Layer)

def seqLayers (ls : List Layer) : Layer := ls.foldr Layer.comp Layer.empty

/- The torch Conv2d output size: floor((h + 2 padding - kernel) / stride) + 1. -/
def convOut (h kernel stride padding : Nat) : Nat :=
  (h + 2 * padding - kernel) / stride + 1

def runShape : Layer → Shape → Option Shape
  | .conv2d inC outC k s p _bias, ⟨n, c, h, w⟩ =>
      if c = inC ∧ 0 < s ∧ k ≤ h + 2 * p ∧ k ≤ w + 2 * p then
        some ⟨n, outC, convOut h k s p, convOut w k s p⟩
      else none
  | .batchNorm ch, s => if s.d1 = ch then some s else none
  | .relu, s => some s
  | .upsample f, ⟨n, c, h, w⟩ => some ⟨n, c, h * f, w * f⟩
  | .empty, s => some s
  | .comp a b, s => (runShape a s).bind (runShape b)
  | .residual main down, s =>
      match runShape main s, runShape down s with
      | some o, some r => if o = r then some o else none
      | _, _ => none
  | .residualId main, s =>
      match runShape main s with
      | some o => if o = s then some o else none
      | _ => none

lemma seqLayers_nil : seqLayers [] = Layer.empty := rfl

lemma seqLayers_cons (l : Layer) (ls : List Layer) :
    seqLayers (l :: ls) = Layer.comp l (seqLayers ls) := rfl

lemma runShape_comp (a b : Layer) (s : Shape) :
    runShape (Layer.comp a b) s = (runShape a s).bind (runShape b) := rfl

lemma runShape_empty (s : Shape) : runShape Layer.empty s = some s := rfl

/- ----------------------------------------------------------------------
   Residual blocks (model.py lines 54-123).  `conv3x3L` mirrors `conv3x3`
   (3x3, padding 1, no bias); `mkBlock .basic` is `BasicBlock` and
   `mkBlock .bottleneck` is `Bottleneck` (expansion 4). -/
def conv3x3L (in_planes out_planes stride : Nat) : Layer :=
  .conv2d in_planes out_planes 3 stride 1 false

inductive BlockKind where
  | basic
  | bottleneck
  deriving DecidableEq

def BlockKind.expansion : BlockKind → Nat
  | .basic => 1
  | .bottleneck => 4

def mkBlock (bk : BlockKind) (inplanes planes stride : Nat)
    (downsample : Option Layer) : Layer :=
  let main : Layer :=
    match bk with
    | .basic =>
        seqLayers [conv3x3L inplanes planes stride, .batchNorm planes, .relu,
                   conv3x3L planes planes 1, .batchNorm planes]
    | .bottleneck =>
        seqLayers [.conv2d inplanes planes 1 1 0 false, .batchNorm planes, .relu,
                   .conv2d planes planes 3 stride 1 false, .batchNorm planes, .relu,
                   .conv2d planes (planes * 4) 1 1 0 false, .batchNorm (planes * 4)]
  match downsample with
  | some d => .residual main d
  | none => .residualId main

/- The downsample projection rule shared by `_make_layer` (lines 289-295)
   and `_make_one_branch` (lines 147-156): a 1x1 convolution + batch norm
   is attached exactly when the stride is not 1 or the input channel count
   differs from planes * expansion. -/
def layer_downsample (bk : BlockKind) (inplanes planes stride : Nat) : Option Layer :=
  if stride ≠ 1 ∨ inplanes ≠ planes * bk.expansion then
    some (seqLayers [.conv2d inplanes (planes * bk.expansion) 1 stride 0 false,
                     .batchNorm (planes * bk.expansion)])
  else none

/- `HigherResolutionNet._make_layer` (lines 289-303).  Returns the built
   sequence together with the updated `self.inplanes`. -/
def make_layer (bk : BlockKind) (inplanes planes blocks stride : Nat) : Layer × Nat :=
  let first := mkBlock bk inplanes planes stride (layer_downsample bk inplanes planes stride)
  let rest := (List.range (blocks - 1)).map fun _ =>
    mkBlock bk (planes * bk.expansion) planes 1 none
  (seqLayers (first :: rest), planes * bk.expansion)

/- `HighResolutionModule._make_one_branch` (lines 145-167).  Returns the
   branch together with the updated `self.num_inchannels` list. -/
def make_one_branch (bk : BlockKind) (num_inchannels : List Nat) (branch_index : Nat)
    (num_blocks num_channels : List Nat) (stride : Nat) : Layer × List Nat :=
  let inp := num_inchannels.getD branch_index 0
  let nch := num_channels.getD branch_index 0
  let first := mkBlock bk inp nch stride (layer_downsample bk inp nch stride)
  let rest := (List.range (num_blocks.getD branch_index 0 - 1)).map fun _ =>
    mkBlock bk (nch * bk.expansion) nch 1 none
  (seqLayers (first :: rest), num_inchannels.set branch_index (nch * bk.expansion))

/- `HighResolutionModule._make_branches` (lines 169-176). -/
def make_branches (bk : BlockKind) (num_branches : Nat)
    (num_blocks num_channels num_inchannels : List Nat) : List Layer × List Nat :=
  (List.range num_branches).foldl
    (fun acc i =>
      let br := make_one_branch bk acc.2 i num_blocks num_channels 1
      (acc.1 ++ [br.1], br.2))
    ([], num_inchannels)

/- `HighResolutionModule._make_fuse_layers` (lines 178-221): `none` for a
   single branch; otherwise one row per computed target i (all
   `num_branches` targets when `multi_scale_output`, else only target 0),
   with entry (i, j) as in the source: for j > i a 1x1 projection to
   `num_inchannels[i]` channels, batch norm, and nearest upsampling by
   2^(j-i); `none` (identity) for j = i; and for j < i a cascade of i - j
   stride-2 3x3 convolutions, each with batch norm, all but the last also
   with a trailing ReLU, the last projecting to `num_inchannels[i]`. -/
/- One step of the downsampling cascade for target i from source j (the
   body of the `for k in range(i-j)` loop, lines 201-217). -/
def fuse_cascade_step (num_inchannels : List Nat) (i j k : Nat) : Layer :=
  if k = i - j - 1 then
    seqLayers [.conv2d (num_inchannels.getD j 0) (num_inchannels.getD i 0) 3 2 1 false,
               .batchNorm (num_inchannels.getD i 0)]
  else
    seqLayers [.conv2d (num_inchannels.getD j 0) (num_inchannels.getD j 0) 3 2 1 false,
               .batchNorm (num_inchannels.getD j 0),
               .relu]

/- Entry (i, j) of the fuse-layer table (the body of the `for j` loop,
   lines 187-218). -/
def fuse_entry (num_inchannels : List Nat) (i j : Nat) : Option Layer :=
  if j > i then
    some (seqLayers [.conv2d (num_inchannels.getD j 0) (num_inchannels.getD i 0) 1 1 0 false,
                     .batchNorm (num_inchannels.getD i 0),
                     .upsample (2 ^ (j - i))])
  else if j = i then none
  else
    some (seqLayers ((List.range (i - j)).map (fuse_cascade_step num_inchannels i j)))

/- The row of fuse layers for target i (the body of the `for i` loop). -/
def fuse_row (num_branches : Nat) (num_inchannels : List Nat) (i : Nat) :
    List (Option Layer) :=
  (List.range num_branches).map (fuse_entry num_inchannels i)

def make_fuse_layers (num_branches : Nat) (multi_scale_output : Bool)
    (num_inchannels : List Nat) : Option (List (List (Option Layer))) :=
  if num_branches = 1 then none
  else
    some ((List.range (if multi_scale_output then num_branches else 1)).map
      (fuse_row num_branches num_inchannels))

/- ----------------------------------------------------------------------
   `HighResolutionModule` (lines 129-244) and its forward pass.  The
   forward computation is first described symbolically (`FExpr`), exactly
   mirroring the source's loops, and then evaluated at the shape level:
   this keeps "which branch outputs are combined, through which fuse
   layers, with which activations" visible as syntax. -/
structure HRModule where
  num_branches : Nat
  branches : List Layer
  fuse_layers : Option (List (List (Option Layer)))
  num_inchannels : List Nat
  multi_scale_output : Bool

def mkHighResolutionModule (num_branches : Nat) (bk : BlockKind)
    (num_blocks num_inchannels num_channels : List Nat)
    (multi_scale_output : Bool) : HRModule :=
  let br := make_branches bk num_branches num_blocks num_channels num_inchannels
  { num_branches := num_branches
    branches := br.1
    fuse_layers := make_fuse_layers num_branches multi_scale_output br.2
    num_inchannels := br.2
    multi_scale_output := multi_scale_output }

inductive FExpr where
  | input (j : Nat)
  | app (l : Layer) (e : FExpr)
  | add (a b : FExpr)
  | relu (e : FExpr)

/- `x[j] = self.branches[j](x[j])` (line 231). -/
def HRModule.branchExpr (m : HRModule) (j : Nat) : FExpr :=
  .app (m.branches.getD j Layer.empty) (.input j)

/- The fused pre-activation value `y` for target i (lines 236-241):
   start from `x[0]` when i = 0, else from `fuse_layers[i][0](x[0])`, then
   add, for j = 1 .. num_branches - 1, `x[j]` when i = j and
   `fuse_layers[i][j](x[j])` otherwise. -/
def HRModule.fuseExpr (m : HRModule) (i : Nat) : FExpr :=
  let row := (m.fuse_layers.getD []).getD i []
  let y0 : FExpr :=
    if i = 0 then m.branchExpr 0
    else .app ((row.getD 0 none).getD Layer.empty) (m.branchExpr 0)
  (List.range (m.num_branches - 1)).foldl
    (fun y j1 =>
      let j := j1 + 1
      if i = j then .add y (m.branchExpr j)
      else .add y (.app ((row.getD j none).getD Layer.empty) (m.branchExpr j)))
    y0

/- `HighResolutionModule.forward` (lines 226-244) as a list of symbolic
   outputs: a single branch returns `[self.branches[0](x[0])]` directly;
   otherwise one `relu`-activated fused expression per fuse row. -/
def HRModule.forwardExprs (m : HRModule) : List FExpr :=
  if m.num_branches = 1 then
    [.app (m.branches.getD 0 Layer.empty) (.input 0)]
  else
    (List.range (m.fuse_layers.getD []).length).map fun i => .relu (m.fuseExpr i)

def FExpr.evalShape (env : List Shape) : FExpr → Option Shape
  | .input j => env.get? j
  | .app l e => (e.evalShape env).bind (runShape l)
  | .add a b =>
      match a.evalShape env, b.evalShape env with
      | some s, some t => if s = t then some s else none
      | _, _ => none
  | .relu e => e.evalShape env

def HRModule.forwardShape (m : HRModule) (xs : List Shape) : Option (List Shape) :=
  m.forwardExprs.mapM (fun e => e.evalShape xs)


/- ----------------------------------------------------------------------
   `HigherResolutionNet` (lines 246-417). -/

/- `_make_transition_layer` (lines 254-287). -/
def make_transition_layer (num_channels_pre_layer num_channels_cur_layer : List Nat) :
    List (Option Layer) :=
  let num_branches_cur := num_channels_cur_layer.length
  let num_branches_pre := num_channels_pre_layer.length
  (List.range num_branches_cur).map fun i =>
    if i < num_branches_pre then
      if num_channels_cur_layer.getD i 0 ≠ num_channels_pre_layer.getD i 0 then
        some (seqLayers [.conv2d (num_channels_pre_layer.getD i 0)
                                 (num_channels_cur_layer.getD i 0) 3 1 1 false,
                         .batchNorm (num_channels_cur_layer.getD i 0),
                         .relu])
      else none
    else
      some (seqLayers ((List.range (i + 1 - num_branches_pre)).map fun j =>
        let inchannels := num_channels_pre_layer.getLastD 0
        let outchannels := if j = i - num_branches_pre
                           then num_channels_cur_layer.getD i 0 else inchannels
        seqLayers [.conv2d inchannels outchannels 3 2 1 false,
                   .batchNorm outchannels,
                   .relu]))

/- A stage configuration dictionary (the `FUSE_METHOD` entry is always
   `SUM` and is not consulted by the computation). -/
structure StageCfg where
  num_modules : Nat
  num_branches : Nat
  block : BlockKind
  num_blocks : List Nat
  num_channels : List Nat

/- `_make_stage` (lines 305-334): `multi_scale_output` is forwarded as
   `False` only to the last module of the stage; the `num_inchannels`
   list is threaded through the modules. -/
def make_stage (cfg : StageCfg) (num_inchannels : List Nat)
    (multi_scale_output : Bool) : List HRModule × List Nat :=
  (List.range cfg.num_modules).foldl
    (fun acc i =>
      let reset_multi_scale_output :=
        if ¬ multi_scale_output ∧ i = cfg.num_modules - 1 then false else true
      let m := mkHighResolutionModule cfg.num_branches cfg.block cfg.num_blocks
                 acc.2 cfg.num_channels reset_multi_scale_output
      (acc.1 ++ [m], m.num_inchannels))
    ([], num_inchannels)

structure HigherResolutionNet where
  conv1 : Layer
  bn1 : Layer
  conv2 : Layer
  bn2 : Layer
  layer1 : Layer
  stage2_cfg : StageCfg
  transition1 : List (Option Layer)
  stage2 : List HRModule
  stage3_cfg : StageCfg
  transition2 : List (Option Layer)
  stage3 : List HRModule
  stage4_cfg : StageCfg
  transition3 : List (Option Layer)
  stage4 : List HRModule
  backbone_channels : Nat

/- `make_baseline` (lines 336-380) together with `__init__`
   (`self.inplanes = 64`, `self.backbone_channels = 32`). -/
def make_baseline : HigherResolutionNet :=
  let inplanes := 64
  let layer1 := make_layer .bottleneck inplanes 64 4 1
  let stage2_cfg : StageCfg := ⟨1, 2, .basic, [4, 4], [32, 64]⟩
  let num_channels2 := stage2_cfg.num_channels.map (· * stage2_cfg.block.expansion)
  let transition1 := make_transition_layer [256] num_channels2
  let st2 := make_stage stage2_cfg num_channels2 true
  let stage3_cfg : StageCfg := ⟨4, 3, .basic, [4, 4, 4], [32, 64, 128]⟩
  let num_channels3 := stage3_cfg.num_channels.map (· * stage3_cfg.block.expansion)
  let transition2 := make_transition_layer st2.2 num_channels3
  let st3 := make_stage stage3_cfg num_channels3 true
  let stage4_cfg : StageCfg := ⟨3, 4, .basic, [4, 4, 4, 4], [32, 64, 128, 256]⟩
  let num_channels4 := stage4_cfg.num_channels.map (· * stage4_cfg.block.expansion)
  let transition3 := make_transition_layer st3.2 num_channels4
  let st4 := make_stage stage4_cfg num_channels4 false
  { conv1 := .conv2d 3 64 3 2 1 false
    bn1 := .batchNorm 64
    conv2 := .conv2d 64 64 3 2 1 false
    bn2 := .batchNorm 64
    layer1 := layer1.1
    stage2_cfg := stage2_cfg
    transition1 := transition1
    stage2 := st2.1
    stage3_cfg := stage3_cfg
    transition2 := transition2
    stage3 := st3.1
    stage4_cfg := stage4_cfg
    transition3 := transition3
    stage4 := st4.1
    backbone_channels := 32 }

/- Shape action of `BHWC_to_BCHW` (lines 39-44): (B, H, W, C) to (B, C, H, W). -/
def bhwcShape (s : Shape) : Shape := ⟨s.d0, s.d3, s.d1, s.d2⟩

/- Running a list of chained `HighResolutionModule`s (an `nn.Sequential`). -/
def runStage : List HRModule → List Shape → Option (List Shape)
  | [], xs => some xs
  | m :: rest, xs => (m.forwardShape xs).bind (runStage rest)

/- Lines 393-398 / 401-406 / 409-414: building `x_list` from the
   transitions.  For stage 2 every entry feeds from `x`; for stages 3 and
   4 a present transition feeds from `y_list[-1]` and an absent one passes
   `y_list[i]` through. -/
def applyTransitionFirst (ts : List (Option Layer)) (num_branches : Nat) (x : Shape) :
    Option (List Shape) :=
  (List.range num_branches).mapM fun i =>
    match ts.getD i none with
    | some t => runShape t x
    | none => some x

def applyTransitionNext (ts : List (Option Layer)) (num_branches : Nat)
    (y_list : List Shape) : Option (List Shape) :=
  (List.range num_branches).mapM fun i =>
    match ts.getD i none with
    | some t => y_list.getLast?.bind (runShape t)
    | none => y_list.get? i

/- `HigherResolutionNet.forward` (lines 382-417) at the shape level.  The
   input-normalisation line 384 transposes BHWC to BCHW (the affine value
   map does not change the shape); then stem, layer1, the three staged
   transitions, and finally `y_list[0]`. -/
def HigherResolutionNet.forwardShape (net : HigherResolutionNet) (x0 : Shape) :
    Option Shape := do
  let x := bhwcShape x0
  let x ← runShape net.conv1 x
  let x ← runShape net.bn1 x
  let x ← runShape .relu x
  let x ← runShape net.conv2 x
  let x ← runShape net.bn2 x
  let x ← runShape .relu x
  let x ← runShape net.layer1 x
  let x_list ← applyTransitionFirst net.transition1 net.stage2_cfg.num_branches x
  let y_list ← runStage net.stage2 x_list
  let x_list ← applyTransitionNext net.transition2 net.stage3_cfg.num_branches y_list
  let y_list ← runStage net.stage3 x_list
  let x_list ← applyTransitionNext net.transition3 net.stage4_cfg.num_branches y_list
  let y_list ← runStage net.stage4 x_list
  y_list.get? 0

/- ----------------------------------------------------------------------
   `ROMPv1` (lines 420-481). -/

structure HeadCfg where
  num_heads : Nat
  num_channels : Nat
  num_basic_blocks : Nat

def head_cfg : HeadCfg := ⟨1, 64, 2⟩

/- `params_num, cam_dim = 3 + 22*6 + 10, 3` (line 429). -/
def params_num : Nat := 3 + 22 * 6 + 10

def cam_dim : Nat := 3

structure OutputCfg where
  num_params_map : Nat
  num_center_map : Nat
  num_cam_map : Nat

def output_cfg : OutputCfg := ⟨params_num - cam_dim, 1, cam_dim⟩

/- `_make_head_layers` (lines 445-468): one stride-2 3x3 convolution (with
   bias) + batch norm + ReLU, then `NUM_HEADS` groups of
   `NUM_BASIC_BLOCKS` BasicBlocks, then a final 1x1 convolution to the
   target channel count. -/
def make_head_layers (input_channels output_channels : Nat) : Layer :=
  seqLayers
    ([seqLayers [.conv2d input_channels head_cfg.num_channels 3 2 1 true,
                 .batchNorm head_cfg.num_channels,
                 .relu]]
     ++ ((List.range head_cfg.num_heads).map fun _ =>
          seqLayers ((List.range head_cfg.num_basic_blocks).map fun _ =>
            seqLayers [mkBlock .basic head_cfg.num_channels head_cfg.num_channels 1 none]))
     ++ [.conv2d head_cfg.num_channels output_channels 1 1 0 true])

/- `_make_final_layers` (lines 436-443): `[None, params head, center head,
   cam head]`, each head fed `backbone_channels + 2` input channels. -/
def make_final_layers (input_channels : Nat) : List (Option Layer) :=
  let ic := input_channels + 2
  [none,
   some (make_head_layers ic output_cfg.num_params_map),
   some (make_head_layers ic output_cfg.num_center_map),
   some (make_head_layers ic output_cfg.num_cam_map)]

structure ROMPv1 where
  backbone : HigherResolutionNet
  final_layers : List (Option Layer)
  coordmaps : Tensor4 ℚ

/- `ROMPv1.__init__` / `_build_head` (lines 421-434). -/
def mkROMPv1 : ROMPv1 :=
  let backbone := make_baseline
  { backbone := backbone
    final_layers := make_final_layers backbone.backbone_channels
    coordmaps := get_coord_maps 128 }

/- Concatenation along dimension 1 at the shape level (`torch.cat(.., 1)`
   requires all other dimensions to agree). -/
def catShapeDim1 (a b : Shape) : Option Shape :=
  if a.d0 = b.d0 ∧ a.d2 = b.d2 ∧ a.d3 = b.d3 then
    some ⟨a.d0, a.d1 + b.d1, a.d2, a.d3⟩
  else none

/- The three head applications of `ROMPv1.forward` (lines 472-477): the
   backbone output is concatenated with the coordinate maps (broadcast to
   the batch size by `.repeat(x.shape[0], 1, 1, 1)`), then the params,
   center and cam heads are applied to the result. -/
def ROMPv1.headShapes (m : ROMPv1) (image : Shape) :
    Option (Shape × Shape × Shape) := do
  let x ← m.backbone.forwardShape image
  let xc ← catShapeDim1 x ⟨x.d0, m.coordmaps.d1, m.coordmaps.d2, m.coordmaps.d3⟩
  let l1 ← m.final_layers.getD 1 none
  let params_maps ← runShape l1 xc
  let l2 ← m.final_layers.getD 2 none
  let center_maps ← runShape l2 xc
  let l3 ← m.final_layers.getD 3 none
  let cam_maps ← runShape l3 xc
  return (params_maps, center_maps, cam_maps)

/- `ROMPv1.forward` (lines 470-481) at the shape level: the in-place
   `cam_maps[:, 0] = torch.pow(1.1, cam_maps[:, 0])` requires at least one
   cam channel and leaves the shape unchanged; the returned pair is
   `(center_maps, cat([cam_maps, params_maps], 1))`. -/
def ROMPv1.forwardShape (m : ROMPv1) (image : Shape) : Option (Shape × Shape) := do
  let hs ← m.headShapes image
  let params_maps := hs.1
  let center_maps := hs.2.1
  let cam_maps := hs.2.2
  if 0 < cam_maps.d1 then
    let pm ← catShapeDim1 cam_maps params_maps
    return (center_maps, pm)
  else none

/- The constructed model, used by the end-to-end shape theorems. -/
def romp_model : ROMPv1 := mkROMPv1

/- ----------------------------------------------------------------------
   Value-level input pre-processing (lines 39-44 and 384). -/

def Tensor4.unsqueeze1 (x : Tensor4 ℚ) : Tensor5 ℚ :=
  ⟨x.d0, 1, x.d1, x.d2, x.d3, fun b _u h w c => x.data b h w c⟩

/- `transpose(1, -1)` on a 5-d tensor: swap dimensions 1 and 4. -/
def Tensor5.transpose1Last (x : Tensor5 ℚ) : Tensor5 ℚ :=
  ⟨x.e0, x.e4, x.e2, x.e3, x.e1, fun b i h w j => x.data b j h w i⟩

/- `squeeze(-1)` on a 5-d tensor whose last dimension is 1. -/
def Tensor5.squeezeLast (x : Tensor5 ℚ) : Tensor4 ℚ :=
  ⟨x.e0, x.e1, x.e2, x.e3, fun b c h w => x.data b c h w 0⟩

def BHWC_to_BCHW (x : Tensor4 ℚ) : Tensor4 ℚ :=
  x.unsqueeze1.transpose1Last.squeezeLast

/- `((BHWC_to_BCHW(x) / 255.) * 2.0 - 1.0)` (line 384). -/
def backbone_normalize (x : Tensor4 ℚ) : Tensor4 ℚ :=
  let y := BHWC_to_BCHW x
  ⟨y.d0, y.d1, y.d2, y.d3, fun b c h w => y.data b c h w / 255 * 2 - 1⟩

/- ----------------------------------------------------------------------
   Value-level camera post-processing (lines 475-480).  The float
   `torch.pow(1.1, v)` is idealised as the real exponential
   `(1.1 : ℝ) ^ (v : ℝ)`; the head outputs themselves carry arbitrary
   rational values (they depend on learned parameters). -/

noncomputable def cam_scale_transform (v : ℚ) : ℝ := Real.rpow 1.1 (v : ℝ)

/- Concatenation along dimension 1 at the value level. -/
def Tensor4.catDim1 {α : Type} (a b : Tensor4 α) : Tensor4 α :=
  ⟨a.d0, a.d1 + b.d1, a.d2, a.d3, fun bi ch r c =>
    if ch < a.d1 then a.data bi ch r c else b.data bi (ch - a.d1) r c⟩

noncomputable def Tensor4.castReal (t : Tensor4 ℚ) : Tensor4 ℝ :=
  ⟨t.d0, t.d1, t.d2, t.d3, fun b c h w => ((t.data b c h w : ℚ) : ℝ)⟩

/- `cam_maps[:, 0] = torch.pow(1.1, cam_maps[:, 0])` followed by
   `params_maps = torch.cat([cam_maps, params_maps], 1)`. -/
noncomputable def romp_head_postprocess (cam_maps params_maps : Tensor4 ℚ) : Tensor4 ℝ :=
  let cam2 : Tensor4 ℝ :=
    ⟨cam_maps.d0, cam_maps.d1, cam_maps.d2, cam_maps.d3, fun b ch r c =>
      if ch = 0 then cam_scale_transform (cam_maps.data b 0 r c)
      else ((cam_maps.data b ch r c : ℚ) : ℝ)⟩
  cam2.catDim1 params_maps.castReal

/- ----------------------------------------------------------------------
   Batch-normalisation statistics.  model.py constructs every norm layer
   as `nn.BatchNorm2d(..., momentum=BN_MOMENTUM)` with `BN_MOMENTUM = 0.1`
   and never switches the model out of its post-construction training
   mode (`nn.Module` defaults to `training = True`; the file calls
   neither `eval()` nor `train(False)` before a direct forward call).
   Per torch semantics a BatchNorm2d layer in training mode updates its
   per-channel running statistics from the batch statistics of its input
   and bumps `num_batches_tracked`; in eval mode it leaves them
   untouched.  One channel's statistics state and its transition: -/

def BN_MOMENTUM : ℚ := 1 / 10

def nn_module_default_training : Bool := true

structure BNState where
  running_mean : ℚ
  running_var : ℚ
  num_batches_tracked : Nat
  deriving DecidableEq

/- The running-statistics update of `nn.BatchNorm2d` for one channel on a
   batch of values: in training mode, exponential moving averages with
   the layer's momentum (the variance one with the unbiased batch
   variance) and an incremented batch counter; in eval mode, the identity. -/
def batchNorm_stat_update (momentum : ℚ) (training : Bool) (s : BNState)
    (batch : List ℚ) : BNState :=
  if training then
    let n : ℚ := batch.length
    let mean := batch.sum / n
    let var_unbiased := (batch.map (fun x => (x - mean) ^ 2)).sum / (n - 1)
    { running_mean := (1 - momentum) * s.running_mean + momentum * mean
      running_var := (1 - momentum) * s.running_var + momentum * var_unbiased
      num_batches_tracked := s.num_batches_tracked + 1 }
  else s

/- ----------------------------------------------------------------------
   Theorems. -/
lemma xx_channel_eq (size r c : Nat) : xx_channel size r c = (c : ℤ) := by
  simp [xx_channel, xx_ones, xx_range]

lemma yy_channel_eq (size r c : Nat) : yy_channel size r c = (r : ℤ) := by
  simp [yy_channel, yy_ones, yy_range]

lemma get_coord_maps_entry0 (size r c : Nat) :
    (get_coord_maps size).data 0 0 r c = (c : ℚ) / ((size : ℚ) - 1) * 2 - 1 := by
  simp [get_coord_maps, xx_norm, xx_channel_eq, coordDivisor]

lemma get_coord_maps_entry1 (size r c : Nat) :
    (get_coord_maps size).data 0 1 r c = (r : ℚ) / ((size : ℚ) - 1) * 2 - 1 := by
  simp [get_coord_maps, yy_norm, yy_channel_eq, coordDivisor]

lemma coord_last_col (N : Nat) (hN : 2 ≤ N) :
    ((N - 1 : Nat) : ℚ) / ((N : ℚ) - 1) * 2 - 1 = 1 := by
  have h1 : (1 : Nat) ≤ N := le_trans (by norm_num) hN
  have hcast : ((N - 1 : Nat) : ℚ) = (N : ℚ) - 1 := by
    push_cast [h1]
    ring
  have hne : (N : ℚ) - 1 ≠ 0 := by
    have h2 : (2 : ℚ) ≤ (N : ℚ) := by exact_mod_cast hN
    intro h
    have : (N : ℚ) = 1 := by linarith
    linarith
  rw [hcast, div_self hne]
  norm_num

/-- C2 (amended): for every grid size N ≥ 2, `get_coord_maps N` has shape
(1, 2, N, N); channel 0 at (row r, column c) equals c/(N-1)*2-1, so it is
-1 at column 0 and +1 at column N-1, and channel 1 analogously equals
r/(N-1)*2-1; the function is a pure function of N. -/
theorem coord_maps_grid (N r c : Nat) (hN : 2 ≤ N) (hr : r < N) (hc : c < N) :
    (get_coord_maps N).shape = ⟨1, 2, N, N⟩ ∧
    (get_coord_maps N).data 0 0 r c = (c : ℚ) / ((N : ℚ) - 1) * 2 - 1 ∧
    (get_coord_maps N).data 0 1 r c = (r : ℚ) / ((N : ℚ) - 1) * 2 - 1 ∧
    (get_coord_maps N).data 0 0 r 0 = -1 ∧
    (get_coord_maps N).data 0 0 r (N - 1) = 1 ∧
    (get_coord_maps N).data 0 1 0 c = -1 ∧
    (get_coord_maps N).data 0 1 (N - 1) c = 1 := by
  refine ⟨rfl, get_coord_maps_entry0 N r c, get_coord_maps_entry1 N r c, ?_, ?_, ?_, ?_⟩
  · rw [get_coord_maps_entry0]
    norm_num
  · rw [get_coord_maps_entry0]
    exact coord_last_col N hN
  · rw [get_coord_maps_entry1]
    norm_num
  · rw [get_coord_maps_entry1]
    exact coord_last_col N hN

/-- C2 witness: the amended statement instantiated at N = 4, r = 1, c = 3. -/
theorem coord_maps_grid_witness :
    (2 ≤ 4 ∧ 1 < 4 ∧ 3 < 4) ∧ (get_coord_maps 4).data 0 0 1 (4 - 1) = 1 := by
  refine ⟨by decide, ?_⟩
  exact (coord_maps_grid 4 1 3 (by decide) (by decide) (by decide)).2.2.2.2.1

/-- C2 counterexample: at grid size N = 1 the claimed property fails: channel 0
at column N-1 = 0 is not +1 (the normalisation divides by size - 1 = 0; the
embedded rational semantics yields -1 there, and in any semantics the value is
not the claimed +1). -/
theorem coord_maps_size_one_refutes :
    ¬ ((get_coord_maps 1).data 0 0 0 (1 - 1) = 1) := by
  rw [show (1 - 1 : Nat) = 0 from rfl, get_coord_maps_entry0]
  norm_num

/-- C10: `get_coord_maps` divides by (size - 1), so at size = 1 the divisor is
zero and the result is not a well-formed [-1, 1] grid (channel 0 at the last
column is not +1); for every size N ≥ 2 the divisor is nonzero and the grid
contract holds at the endpoints. -/
theorem coord_maps_divisor_edge (N : Nat) (hN : 2 ≤ N) :
    coordDivisor 1 = 0 ∧
    (get_coord_maps 1).data 0 0 0 (1 - 1) ≠ 1 ∧
    coordDivisor N ≠ 0 ∧
    (get_coord_maps N).data 0 0 0 (N - 1) = 1 ∧
    (get_coord_maps N).data 0 0 0 0 = -1 := by
  refine ⟨?_, ?_, ?_, ?_, ?_⟩
  · unfold coordDivisor
    norm_num
  · rw [show (1 - 1 : Nat) = 0 from rfl, get_coord_maps_entry0]
    norm_num
  · unfold coordDivisor
    have h2 : (2 : ℚ) ≤ (N : ℚ) := by exact_mod_cast hN
    intro h
    have : (N : ℚ) = 1 := by linarith
    linarith
  · rw [get_coord_maps_entry0]
    exact coord_last_col N hN
  · rw [get_coord_maps_entry0]
    norm_num

/-- C10 witness: the statement instantiated at N = 3. -/
theorem coord_maps_divisor_edge_witness :
    (2 ≤ 3) ∧ coordDivisor 1 = 0 ∧ coordDivisor 3 ≠ 0 ∧
    (get_coord_maps 3).data 0 0 0 (3 - 1) = 1 := by
  refine ⟨by decide, ?_, ?_, ?_⟩
  · exact (coord_maps_divisor_edge 3 (by decide)).1
  · exact (coord_maps_divisor_edge 3 (by decide)).2.2.1
  · exact (coord_maps_divisor_edge 3 (by decide)).2.2.2.1

/- Shared evaluations of the constructed model's shape pipeline. -/
lemma romp_forward_shape_eval :
    romp_model.forwardShape ⟨1, 512, 512, 3⟩ =
      some (⟨1, 1, 64, 64⟩, ⟨1, 145, 64, 64⟩) := by decide

lemma romp_head_shapes_eval :
    romp_model.headShapes ⟨1, 512, 512, 3⟩ =
      some (⟨1, 142, 64, 64⟩, ⟨1, 1, 64, 64⟩, ⟨1, 3, 64, 64⟩) := by decide

/-- C1 counterexample: on a (1, 512, 512, 3) input the parameter map does not
have 22*6+10 = 142 channels: the forward pass returns a parameter map of
shape (1, 145, 64, 64) — the camera head's 3 channels concatenated with the
body/shape head's (3+22*6+10)-3 = 142 channels give 145 channels in total. -/
theorem romp_forward_param_channels_refute :
    ¬ (romp_model.forwardShape ⟨1, 512, 512, 3⟩ =
        some (⟨1, 1, 64, 64⟩, ⟨1, 22 * 6 + 10, 64, 64⟩)) := by
  rw [romp_forward_shape_eval]
  decide

/-- C1 (amended): for a (1, 512, 512, 3) input image shape, `ROMPv1.forward`
returns a detection/center map of shape (1, 1, 64, 64) and a parameter map of
shape (1, 3+22*6+10, 64, 64) = (1, 145, 64, 64), the camera head's 3 channels
concatenated along the channel axis with the body/shape head's
(3+22*6+10)-3 = 142 channels. -/
theorem romp_forward_output_shapes :
    romp_model.forwardShape ⟨1, 512, 512, 3⟩ =
      some (⟨1, 1, 64, 64⟩, ⟨1, 3 + 22 * 6 + 10, 64, 64⟩) ∧
    romp_model.headShapes ⟨1, 512, 512, 3⟩ =
      some (⟨1, params_num - cam_dim, 64, 64⟩, ⟨1, 1, 64, 64⟩, ⟨1, cam_dim, 64, 64⟩) ∧
    3 + 22 * 6 + 10 = cam_dim + (params_num - cam_dim) ∧
    cam_dim = 3 := by
  refine ⟨?_, ?_, by decide, rfl⟩
  · rw [romp_forward_shape_eval]
  · rw [romp_head_shapes_eval]
    decide

/-- C3: for any raw camera-head and params-head outputs (the camera head has 3
output channels), channel 0 of the returned parameter map equals 1.1 raised to
the raw camera-head channel-0 value; it is therefore strictly positive, and
the transform is strictly monotone in the raw value. -/
theorem camera_scale_positive (cam_maps params_maps : Tensor4 ℚ)
    (hc : cam_maps.d1 = 3) (b r c : Nat) :
    (romp_head_postprocess cam_maps params_maps).data b 0 r c =
      cam_scale_transform (cam_maps.data b 0 r c) ∧
    0 < (romp_head_postprocess cam_maps params_maps).data b 0 r c ∧
    (∀ v : ℚ, 0 < cam_scale_transform v) ∧
    (∀ v v2 : ℚ, v < v2 → cam_scale_transform v < cam_scale_transform v2) := by
  have hpos : ∀ v : ℚ, 0 < cam_scale_transform v := fun v =>
    Real.rpow_pos_of_pos (by norm_num) _
  have hentry : (romp_head_postprocess cam_maps params_maps).data b 0 r c =
      cam_scale_transform (cam_maps.data b 0 r c) := by
    simp [romp_head_postprocess, Tensor4.catDim1, hc]
  refine ⟨hentry, ?_, hpos, ?_⟩
  · rw [hentry]
    exact hpos _
  · intro v v2 hv
    unfold cam_scale_transform
    rw [show (Real.rpow 1.1 (v : ℝ)) = (1.1 : ℝ) ^ (v : ℝ) from rfl,
        show (Real.rpow 1.1 (v2 : ℝ)) = (1.1 : ℝ) ^ (v2 : ℝ) from rfl]
    exact (Real.rpow_lt_rpow_left_iff (by norm_num)).mpr (by exact_mod_cast hv)

/-- C3 witness: at the all-zero 3-channel camera map, channel 0 of the
parameter map is 1.1^0 and is positive. -/
theorem camera_scale_positive_witness :
    (Tensor4.mk 1 3 1 1 (fun _ _ _ _ => (0 : ℚ))).d1 = 3 ∧
    0 < (romp_head_postprocess (Tensor4.mk 1 3 1 1 (fun _ _ _ _ => (0 : ℚ)))
          (Tensor4.mk 1 142 1 1 (fun _ _ _ _ => (0 : ℚ)))).data 0 0 0 0 :=
  ⟨rfl, (camera_scale_positive (Tensor4.mk 1 3 1 1 (fun _ _ _ _ => (0 : ℚ)))
          (Tensor4.mk 1 142 1 1 (fun _ _ _ _ => (0 : ℚ))) rfl 0 0 0).2.1⟩

/-- C8 counterexample: in the model's post-construction default training mode,
a forward step through a batch-norm layer with the source's momentum 0.1 does
mutate the layer's running statistics: from (running_mean 0, running_var 1,
0 batches tracked), a two-element batch of ones moves the state. -/
theorem batchnorm_training_mutates :
    batchNorm_stat_update BN_MOMENTUM nn_module_default_training
      ⟨0, 1, 0⟩ [1, 1] ≠ ⟨0, 1, 0⟩ := by
  intro h
  have h2 := congrArg BNState.num_batches_tracked h
  simp [batchNorm_stat_update, nn_module_default_training] at h2

/-- C8 (amended): with the model in evaluation mode (`training = false`, as
the export path sets), a forward pass leaves every batch-norm layer's running
statistics unchanged, so with parameters fixed the pass is a pure function of
the input; in the default training mode a forward call updates the running
statistics (see the counterexample). -/
theorem batchnorm_eval_mode_pure (momentum : ℚ) (s : BNState) (batch : List ℚ) :
    batchNorm_stat_update momentum false s batch = s := by
  simp [batchNorm_stat_update]

/-- C9: the backbone's forward first transposes a (B, H, W, C=3) input to
(B, 3, H, W) and maps each pixel value v in [0, 255] to (v/255)*2 - 1, a value
in [-1, 1], before the first stem convolution; the shape-level pipeline's
first step `bhwcShape` agrees with the value-level `BHWC_to_BCHW`. -/
theorem backbone_input_normalization (x : Tensor4 ℚ) (b c h w : Nat)
    (h3 : x.d3 = 3) (hlo : 0 ≤ x.data b h w c) (hhi : x.data b h w c ≤ 255) :
    (backbone_normalize x).shape = ⟨x.d0, 3, x.d1, x.d2⟩ ∧
    (backbone_normalize x).shape = bhwcShape x.shape ∧
    (BHWC_to_BCHW x).data b c h w = x.data b h w c ∧
    (backbone_normalize x).data b c h w = x.data b h w c / 255 * 2 - 1 ∧
    -1 ≤ (backbone_normalize x).data b c h w ∧
    (backbone_normalize x).data b c h w ≤ 1 := by
  have hdata : (backbone_normalize x).data b c h w = x.data b h w c / 255 * 2 - 1 := rfl
  have hd : x.data b h w c / 255 ≤ 1 := by
    rw [div_le_one (by norm_num : (0 : ℚ) < 255)]
    exact hhi
  have hd0 : 0 ≤ x.data b h w c / 255 := div_nonneg hlo (by norm_num)
  refine ⟨?_, rfl, rfl, hdata, ?_, ?_⟩
  · simp [backbone_normalize, BHWC_to_BCHW, Tensor4.unsqueeze1,
          Tensor5.transpose1Last, Tensor5.squeezeLast, Tensor4.shape, h3]
  · rw [hdata]
    linarith
  · rw [hdata]
    linarith

/-- C9 witness: the all-128 (mid-gray) pixel value maps to 1/255 inside
[-1, 1], at a concrete (1, 2, 2, 3) input tensor. -/
theorem backbone_input_normalization_witness :
    ((Tensor4.mk 1 2 2 3 (fun _ _ _ _ => (128 : ℚ))).d3 = 3 ∧
      (0 : ℚ) ≤ 128 ∧ (128 : ℚ) ≤ 255) ∧
    (backbone_normalize (Tensor4.mk 1 2 2 3 (fun _ _ _ _ => (128 : ℚ)))).data 0 0 0 0 =
      (128 : ℚ) / 255 * 2 - 1 ∧
    (backbone_normalize (Tensor4.mk 1 2 2 3 (fun _ _ _ _ => (128 : ℚ)))).shape =
      ⟨1, 3, 2, 2⟩ := by
  refine ⟨⟨rfl, by norm_num, by norm_num⟩, ?_, ?_⟩
  · exact (backbone_input_normalization (Tensor4.mk 1 2 2 3 (fun _ _ _ _ => (128 : ℚ)))
      0 0 0 0 rfl (by norm_num) (by norm_num)).2.2.2.1
  · exact (backbone_input_normalization (Tensor4.mk 1 2 2 3 (fun _ _ _ _ => (128 : ℚ)))
      0 0 0 0 rfl (by norm_num) (by norm_num)).1

/-- C5: a `HighResolutionModule` constructed with exactly one branch builds no
fuse layers (`fuse_layers` is `None`), and its forward on a one-element input
returns a one-element list holding the sole branch's output directly — the
symbolic forward is literally `[branches[0](x[0])]`, with no fusion `add` and
no extra `relu` node. -/
theorem hrmodule_single_branch (bk : BlockKind) (nb ninc nch : List Nat)
    (mso : Bool) (s : Shape) :
    (mkHighResolutionModule 1 bk nb ninc nch mso).fuse_layers = none ∧
    (mkHighResolutionModule 1 bk nb ninc nch mso).branches.length = 1 ∧
    (mkHighResolutionModule 1 bk nb ninc nch mso).forwardExprs =
      [FExpr.app ((mkHighResolutionModule 1 bk nb ninc nch mso).branches.getD 0 Layer.empty)
        (FExpr.input 0)] ∧
    (mkHighResolutionModule 1 bk nb ninc nch mso).forwardShape [s] =
      (runShape ((mkHighResolutionModule 1 bk nb ninc nch mso).branches.getD 0 Layer.empty) s).map
        (fun t => [t]) := by
  refine ⟨?_, ?_, ?_, ?_⟩
  · simp [mkHighResolutionModule, make_fuse_layers]
  · simp [mkHighResolutionModule, make_branches, List.range_succ]
  · simp [HRModule.forwardExprs, mkHighResolutionModule]
  · cases hrs : runShape ((mkHighResolutionModule 1 bk nb ninc nch mso).branches.getD 0 Layer.empty) s <;>
      simp [HRModule.forwardShape, HRModule.forwardExprs, mkHighResolutionModule,
            FExpr.evalShape, List.mapM, List.mapM.loop, List.getD] at hrs ⊢ <;>
      simp [hrs]

/-- C6: with `multi_scale_output = False` and more than one branch, only the
fuse row for the highest-resolution target (i = 0) is constructed — the fuse
layers are the one-row truncation of the multi-scale ones and the forward
output list has length 1; in the baseline backbone this single-scale mode is
applied only to the last module of stage 4 (stages 2 and 3 and the first two
stage-4 modules are all multi-scale). -/
theorem hrmodule_single_scale (B : Nat) (bk : BlockKind) (nb ninc nch : List Nat)
    (hB : 1 < B) :
    make_fuse_layers B false ninc = (make_fuse_layers B true ninc).map (List.take 1) ∧
    (make_fuse_layers B false ninc).map List.length = some 1 ∧
    (mkHighResolutionModule B bk nb ninc nch false).forwardExprs.length = 1 ∧
    make_baseline.stage2.map (fun m => m.multi_scale_output) = [true] ∧
    make_baseline.stage3.map (fun m => m.multi_scale_output) = [true, true, true, true] ∧
    make_baseline.stage4.map (fun m => m.multi_scale_output) = [true, true, false] := by
  have hne : B ≠ 1 := by omega
  refine ⟨?_, ?_, ?_, by decide, by decide, by decide⟩
  · simp [make_fuse_layers, hne, ← List.map_take, List.take_range,
          Nat.min_eq_left (by omega : 1 ≤ B)]
  · simp [make_fuse_layers, hne]
  · simp [HRModule.forwardExprs, mkHighResolutionModule, hne, make_fuse_layers]

/-- C6 witness: a two-branch module in single-scale mode computes exactly one
output. -/
theorem hrmodule_single_scale_witness :
    1 < 2 ∧
    (mkHighResolutionModule 2 .basic [4, 4] [32, 64] [32, 64] false).forwardExprs.length = 1 :=
  ⟨by decide, (hrmodule_single_scale 2 .basic [4, 4] [32, 64] [32, 64] (by decide)).2.2.1⟩

/- ----------------------------------------------------------------------
   Shape lemmas for the residual-block builders. -/

lemma runShape_conv3x3 (inC outC s n h w : Nat) (hs : 0 < s) (hh : 0 < h) (hw : 0 < w) :
    runShape (conv3x3L inC outC s) ⟨n, inC, h, w⟩ =
      some ⟨n, outC, (h - 1) / s + 1, (w - 1) / s + 1⟩ := by
  have e1 : h + 2 * 1 - 3 = h - 1 := by omega
  have e2 : w + 2 * 1 - 3 = w - 1 := by omega
  simp only [conv3x3L, runShape, convOut, e1, e2]
  rw [if_pos]
  exact ⟨by trivial, hs, by omega, by omega⟩

lemma runShape_conv1x1 (inC outC s n h w : Nat) (hs : 0 < s) (hh : 0 < h) (hw : 0 < w) :
    runShape (Layer.conv2d inC outC 1 s 0 false) ⟨n, inC, h, w⟩ =
      some ⟨n, outC, (h - 1) / s + 1, (w - 1) / s + 1⟩ := by
  have e1 : h + 2 * 0 - 1 = h - 1 := by omega
  have e2 : w + 2 * 0 - 1 = w - 1 := by omega
  simp only [runShape, convOut, e1, e2]
  rw [if_pos]
  exact ⟨by trivial, hs, by omega, by omega⟩

lemma runShape_bn (ch n h w : Nat) :
    runShape (Layer.batchNorm ch) ⟨n, ch, h, w⟩ = some ⟨n, ch, h, w⟩ := by
  simp [runShape]

lemma runShape_relu (s : Shape) : runShape Layer.relu s = some s := rfl

lemma runShape_upsample (f n c h w : Nat) :
    runShape (Layer.upsample f) ⟨n, c, h, w⟩ = some ⟨n, c, h * f, w * f⟩ := rfl

lemma runShape_residual (main down : Layer) (s : Shape) :
    runShape (Layer.residual main down) s =
      match runShape main s, runShape down s with
      | some o, some r => if o = r then some o else none
      | _, _ => none := rfl

lemma runShape_residualId (main : Layer) (s : Shape) :
    runShape (Layer.residualId main) s =
      match runShape main s with
      | some o => if o = s then some o else none
      | _ => none := rfl

lemma basic_main_shape (inp p s n h w : Nat) (hs : 0 < s) (hh : 0 < h) (hw : 0 < w) :
    runShape (seqLayers [conv3x3L inp p s, .batchNorm p, .relu, conv3x3L p p 1, .batchNorm p])
      ⟨n, inp, h, w⟩ = some ⟨n, p, (h - 1) / s + 1, (w - 1) / s + 1⟩ := by
  have hc2 := runShape_conv3x3 p p 1 n ((h - 1) / s + 1) ((w - 1) / s + 1)
    (by omega) (Nat.succ_pos _) (Nat.succ_pos _)
  have e1 : ((h - 1) / s + 1 - 1) / 1 + 1 = (h - 1) / s + 1 := by simp
  have e2 : ((w - 1) / s + 1 - 1) / 1 + 1 = (w - 1) / s + 1 := by simp
  rw [e1, e2] at hc2
  rw [seqLayers_cons, runShape_comp, runShape_conv3x3 inp p s n h w hs hh hw,
      Option.some_bind, seqLayers_cons, runShape_comp, runShape_bn, Option.some_bind,
      seqLayers_cons, runShape_comp, runShape_relu, Option.some_bind,
      seqLayers_cons, runShape_comp, hc2, Option.some_bind,
      seqLayers_cons, runShape_comp, runShape_bn, Option.some_bind, seqLayers_nil,
      runShape_empty]

lemma bottleneck_main_shape (inp p s n h w : Nat) (hs : 0 < s) (hh : 0 < h) (hw : 0 < w) :
    runShape (seqLayers [.conv2d inp p 1 1 0 false, .batchNorm p, .relu,
                         .conv2d p p 3 s 1 false, .batchNorm p, .relu,
                         .conv2d p (p * 4) 1 1 0 false, .batchNorm (p * 4)])
      ⟨n, inp, h, w⟩ = some ⟨n, p * 4, (h - 1) / s + 1, (w - 1) / s + 1⟩ := by
  have hc1 := runShape_conv1x1 inp p 1 n h w (by omega) hh hw
  have e0 : (h - 1) / 1 + 1 = h := by omega
  have e0' : (w - 1) / 1 + 1 = w := by omega
  rw [e0, e0'] at hc1
  have hc2 : runShape (Layer.conv2d p p 3 s 1 false) ⟨n, p, h, w⟩ =
      some ⟨n, p, (h - 1) / s + 1, (w - 1) / s + 1⟩ := by
    have h3 := runShape_conv3x3 p p s n h w hs hh hw
    simpa [conv3x3L] using h3
  have hc3 := runShape_conv1x1 p (p * 4) 1 n ((h - 1) / s + 1) ((w - 1) / s + 1)
    (by omega) (Nat.succ_pos _) (Nat.succ_pos _)
  have e1 : ((h - 1) / s + 1 - 1) / 1 + 1 = (h - 1) / s + 1 := by simp
  have e2 : ((w - 1) / s + 1 - 1) / 1 + 1 = (w - 1) / s + 1 := by simp
  rw [e1, e2] at hc3
  rw [seqLayers_cons, runShape_comp, hc1, Option.some_bind,
      seqLayers_cons, runShape_comp, runShape_bn, Option.some_bind,
      seqLayers_cons, runShape_comp, runShape_relu, Option.some_bind,
      seqLayers_cons, runShape_comp, hc2, Option.some_bind,
      seqLayers_cons, runShape_comp, runShape_bn, Option.some_bind,
      seqLayers_cons, runShape_comp, runShape_relu, Option.some_bind,
      seqLayers_cons, runShape_comp, hc3, Option.some_bind,
      seqLayers_cons, runShape_comp, runShape_bn, Option.some_bind, seqLayers_nil,
      runShape_empty]

lemma downsample_shape (inp q s n h w : Nat) (hs : 0 < s) (hh : 0 < h) (hw : 0 < w) :
    runShape (seqLayers [.conv2d inp q 1 s 0 false, .batchNorm q]) ⟨n, inp, h, w⟩ =
      some ⟨n, q, (h - 1) / s + 1, (w - 1) / s + 1⟩ := by
  rw [seqLayers_cons, runShape_comp, runShape_conv1x1 inp q s n h w hs hh hw,
      Option.some_bind, seqLayers_cons, runShape_comp, runShape_bn, Option.some_bind,
      seqLayers_nil, runShape_empty]

lemma mkBlock_first_shape (bk : BlockKind) (inp p s n h w : Nat)
    (hs : 0 < s) (hh : 0 < h) (hw : 0 < w) :
    runShape (mkBlock bk inp p s (layer_downsample bk inp p s)) ⟨n, inp, h, w⟩ =
      some ⟨n, p * bk.expansion, (h - 1) / s + 1, (w - 1) / s + 1⟩ := by
  by_cases hcond : s ≠ 1 ∨ inp ≠ p * bk.expansion
  · rw [layer_downsample, if_pos hcond]
    cases bk
    · simp only [mkBlock, BlockKind.expansion, Nat.mul_one]
      rw [runShape_residual, basic_main_shape inp p s n h w hs hh hw,
          downsample_shape inp p s n h w hs hh hw]
      simp
    · simp only [mkBlock, BlockKind.expansion]
      rw [runShape_residual, bottleneck_main_shape inp p s n h w hs hh hw,
          downsample_shape inp (p * 4) s n h w hs hh hw]
      simp
  · push_neg at hcond
    obtain ⟨hs1, hinp⟩ := hcond
    subst hs1
    subst hinp
    rw [layer_downsample, if_neg (by simp)]
    have eh : (h - 1) / 1 + 1 = h := by omega
    have ew : (w - 1) / 1 + 1 = w := by omega
    cases bk
    · simp only [mkBlock, BlockKind.expansion, Nat.mul_one]
      rw [runShape_residualId, basic_main_shape p p 1 n h w Nat.one_pos hh hw, eh, ew]
      simp
    · simp only [mkBlock, BlockKind.expansion]
      rw [runShape_residualId, bottleneck_main_shape (p * 4) p 1 n h w Nat.one_pos hh hw,
          eh, ew]
      simp

lemma mkBlock_tail_shape (bk : BlockKind) (p n h w : Nat) (hh : 0 < h) (hw : 0 < w) :
    runShape (mkBlock bk (p * bk.expansion) p 1 none) ⟨n, p * bk.expansion, h, w⟩ =
      some ⟨n, p * bk.expansion, h, w⟩ := by
  have eh : (h - 1) / 1 + 1 = h := by omega
  have ew : (w - 1) / 1 + 1 = w := by omega
  cases bk
  · simp only [mkBlock, BlockKind.expansion, Nat.mul_one]
    rw [runShape_residualId, basic_main_shape p p 1 n h w Nat.one_pos hh hw, eh, ew]
    simp
  · simp only [mkBlock, BlockKind.expansion]
    rw [runShape_residualId, bottleneck_main_shape (p * 4) p 1 n h w Nat.one_pos hh hw,
        eh, ew]
    simp

lemma tail_blocks_shape (bk : BlockKind) (p n h w : Nat) (hh : 0 < h) (hw : 0 < w)
    (k : Nat) :
    runShape (seqLayers (List.replicate k (mkBlock bk (p * bk.expansion) p 1 none)))
      ⟨n, p * bk.expansion, h, w⟩ = some ⟨n, p * bk.expansion, h, w⟩ := by
  induction k with
  | zero => rw [List.replicate_zero, seqLayers_nil, runShape_empty]
  | succ k ih =>
      rw [List.replicate_succ, seqLayers_cons, runShape_comp,
          mkBlock_tail_shape bk p n h w hh hw, Option.some_bind, ih]

lemma make_layer_shape (bk : BlockKind) (inp p blocks s n h w : Nat)
    (hs : 0 < s) (hh : 0 < h) (hw : 0 < w) :
    runShape (make_layer bk inp p blocks s).1 ⟨n, inp, h, w⟩ =
      some ⟨n, p * bk.expansion, (h - 1) / s + 1, (w - 1) / s + 1⟩ := by
  show runShape (seqLayers (mkBlock bk inp p s (layer_downsample bk inp p s) ::
      (List.range (blocks - 1)).map fun _ => mkBlock bk (p * bk.expansion) p 1 none))
      ⟨n, inp, h, w⟩ = _
  rw [List.map_const', List.length_range, seqLayers_cons, runShape_comp,
      mkBlock_first_shape bk inp p s n h w hs hh hw, Option.some_bind,
      tail_blocks_shape bk p n _ _ (Nat.succ_pos _) (Nat.succ_pos _) (blocks - 1)]

lemma make_one_branch_shape (bk : BlockKind) (ninc : List Nat) (bi : Nat)
    (nb nch : List Nat) (s n h w : Nat) (hs : 0 < s) (hh : 0 < h) (hw : 0 < w) :
    runShape (make_one_branch bk ninc bi nb nch s).1 ⟨n, ninc.getD bi 0, h, w⟩ =
      some ⟨n, nch.getD bi 0 * bk.expansion, (h - 1) / s + 1, (w - 1) / s + 1⟩ := by
  show runShape (seqLayers (mkBlock bk (ninc.getD bi 0) (nch.getD bi 0) s
      (layer_downsample bk (ninc.getD bi 0) (nch.getD bi 0) s) ::
      (List.range (nb.getD bi 0 - 1)).map fun _ =>
        mkBlock bk (nch.getD bi 0 * bk.expansion) (nch.getD bi 0) 1 none))
      ⟨n, ninc.getD bi 0, h, w⟩ = _
  rw [List.map_const', List.length_range, seqLayers_cons, runShape_comp,
      mkBlock_first_shape bk (ninc.getD bi 0) (nch.getD bi 0) s n h w hs hh hw,
      Option.some_bind,
      tail_blocks_shape bk (nch.getD bi 0) n _ _ (Nat.succ_pos _) (Nat.succ_pos _)
        (nb.getD bi 0 - 1)]

/-- C7: in the block sequences built by `_make_layer` and `_make_one_branch`,
a 1x1 convolution + normalisation downsampling projection is attached to the
first block exactly when the stride is not 1 or the input channel count
differs from planes * expansion; consequently the operands of every residual
addition agree, and for every configuration (any block kind, channel counts,
stride > 0 and nonempty spatial input) the built sequence shape-checks, with
the expected planes * expansion output channels and strided spatial size. -/
theorem residual_downsample_contract (bk : BlockKind)
    (inplanes planes blocks stride n h w : Nat) (ninc nb nch : List Nat) (bi : Nat)
    (hs : 0 < stride) (hh : 0 < h) (hw : 0 < w) :
    ((layer_downsample bk inplanes planes stride).isSome ↔
      (stride ≠ 1 ∨ inplanes ≠ planes * bk.expansion)) ∧
    runShape (make_layer bk inplanes planes blocks stride).1 ⟨n, inplanes, h, w⟩ =
      some ⟨n, planes * bk.expansion, (h - 1) / stride + 1, (w - 1) / stride + 1⟩ ∧
    (make_layer bk inplanes planes blocks stride).2 = planes * bk.expansion ∧
    runShape (make_one_branch bk ninc bi nb nch stride).1 ⟨n, ninc.getD bi 0, h, w⟩ =
      some ⟨n, nch.getD bi 0 * bk.expansion, (h - 1) / stride + 1, (w - 1) / stride + 1⟩ ∧
    (make_one_branch bk ninc bi nb nch stride).2 =
      ninc.set bi (nch.getD bi 0 * bk.expansion) := by
  refine ⟨?_, make_layer_shape bk inplanes planes blocks stride n h w hs hh hw, rfl,
          make_one_branch_shape bk ninc bi nb nch stride n h w hs hh hw, rfl⟩
  unfold layer_downsample
  by_cases hcond : stride ≠ 1 ∨ inplanes ≠ planes * bk.expansion
  · rw [if_pos hcond]
    simpa using hcond
  · rw [if_neg hcond]
    simpa using hcond

/-- C7 witness: a stride-2 BasicBlock layer from 8 to 4 channels on a
(1, 8, 5, 5) input yields (1, 4, 3, 3), for both builders. -/
theorem residual_downsample_contract_witness :
    (0 < 2 ∧ 0 < 5) ∧
    runShape (make_layer .basic 8 4 2 2).1 ⟨1, 8, 5, 5⟩ = some ⟨1, 4, 3, 3⟩ ∧
    runShape (make_one_branch .basic [8, 16] 0 [2, 2] [4, 8] 2).1 ⟨1, 8, 5, 5⟩ =
      some ⟨1, 4, 3, 3⟩ := by
  refine ⟨by decide, ?_, ?_⟩
  · exact (residual_downsample_contract .basic 8 4 2 2 1 5 5 [8, 16] [2, 2] [4, 8] 0
      (by decide) (by decide) (by decide)).2.1
  · exact (residual_downsample_contract .basic 8 4 2 2 1 5 5 [8, 16] [2, 2] [4, 8] 0
      (by decide) (by decide) (by decide)).2.2.2.1

/-- C4: in a multi-branch `HighResolutionModule`'s fuse table, for every
computed target i and source j: if j > i the entry is a 1x1
convolution+normalisation projection to branch i's channel count followed by
nearest-neighbor upsampling by 2^(j-i) (and it maps (n, ch_j, h, w) to
(n, ch_i, h*2^(j-i), w*2^(j-i))); if j = i the entry is `None` (identity); if
j < i the entry is a cascade of exactly i-j stride-2 3x3
convolution+normalisation steps (all but the last with a trailing ReLU); and
every forward output is the ReLU activation of the fused sum expression over
all source branches. -/
theorem fuse_layer_structure (B : Nat) (ninc : List Nat) (mso : Bool) (i j n h w : Nat)
    (hB : 1 < B) (hi : i < if mso then B else 1) (hj : j < B) (hh : 0 < h) (hw : 0 < w) :
    make_fuse_layers B mso ninc =
      some ((List.range (if mso then B else 1)).map (fuse_row B ninc)) ∧
    ((List.range (if mso then B else 1)).map (fuse_row B ninc)).length =
      (if mso then B else 1) ∧
    ((List.range (if mso then B else 1)).map (fuse_row B ninc))[i]? =
      some (fuse_row B ninc i) ∧
    (fuse_row B ninc i).length = B ∧
    (i < j →
      (fuse_row B ninc i)[j]? = some (some (seqLayers
        [.conv2d (ninc.getD j 0) (ninc.getD i 0) 1 1 0 false,
         .batchNorm (ninc.getD i 0), .upsample (2 ^ (j - i))])) ∧
      runShape (seqLayers
        [.conv2d (ninc.getD j 0) (ninc.getD i 0) 1 1 0 false,
         .batchNorm (ninc.getD i 0), .upsample (2 ^ (j - i))])
        ⟨n, ninc.getD j 0, h, w⟩ =
        some ⟨n, ninc.getD i 0, h * 2 ^ (j - i), w * 2 ^ (j - i)⟩) ∧
    (j = i → (fuse_row B ninc i)[j]? = some none) ∧
    (j < i →
      (fuse_row B ninc i).get? j =
        some (some (seqLayers ((List.range (i - j)).map (fuse_cascade_step ninc i j)))) ∧
      ((List.range (i - j)).map (fuse_cascade_step ninc i j)).length = i - j ∧
      (∀ k, k < i - j →
        ((List.range (i - j)).map (fuse_cascade_step ninc i j))[k]? =
          some (if k = i - j - 1
            then seqLayers [.conv2d (ninc.getD j 0) (ninc.getD i 0) 3 2 1 false,
                            .batchNorm (ninc.getD i 0)]
            else seqLayers [.conv2d (ninc.getD j 0) (ninc.getD j 0) 3 2 1 false,
                            .batchNorm (ninc.getD j 0), .relu]))) ∧
    (∀ m : HRModule, m.num_branches = B →
      ∀ i2, i2 < m.forwardExprs.length →
        m.forwardExprs[i2]? = some (.relu (m.fuseExpr i2))) := by
  have hne : B ≠ 1 := by omega
  refine ⟨by rw [make_fuse_layers, if_neg hne], by simp, ?_, by simp [fuse_row],
          ?_, ?_, ?_, ?_⟩
  · simp [List.getElem?_map, List.getElem?_range, hi]
  · intro hij
    constructor
    · simp [fuse_row, List.getElem?_map, List.getElem?_range, hj, fuse_entry, hij]
    · have eh : (h - 1) / 1 + 1 = h := by omega
      have ew : (w - 1) / 1 + 1 = w := by omega
      rw [seqLayers_cons, runShape_comp,
          runShape_conv1x1 (ninc.getD j 0) (ninc.getD i 0) 1 n h w Nat.one_pos hh hw,
          eh, ew, Option.some_bind, seqLayers_cons, runShape_comp, runShape_bn,
          Option.some_bind, seqLayers_cons, runShape_comp, runShape_upsample,
          Option.some_bind, seqLayers_nil, runShape_empty]
  · intro hij
    subst hij
    simp [fuse_row, List.getElem?_map, List.getElem?_range, hj, fuse_entry]
  · intro hji
    refine ⟨?_, by simp, ?_⟩
    · simp [fuse_row, List.getElem?_map, List.getElem?_range, hj, fuse_entry,
            Nat.not_lt.mpr (le_of_lt hji), Nat.ne_of_lt hji]
    · intro k hk
      simp [List.getElem?_map, List.getElem?_range, hk, fuse_cascade_step]
  · intro m hm i2 hlen
    simp only [HRModule.forwardExprs, hm, if_neg hne] at hlen ⊢
    rw [List.length_map, List.length_range] at hlen
    simp [List.getElem?_map, List.getElem?_range, hlen]

/-- C4 witness: the 3-branch fuse table at target 1, source 2 (upsampling
path), on a (1, 32, 4, 4) input. -/
theorem fuse_layer_structure_witness :
    (1 < 3 ∧ (1 : Nat) < (if true then 3 else 1) ∧ 2 < 3 ∧ 0 < 4) ∧
    make_fuse_layers 3 true [8, 16, 32] =
      some ((List.range (if true then 3 else 1)).map (fuse_row 3 [8, 16, 32])) ∧
    (fuse_row 3 [8, 16, 32] 1).length = 3 ∧
    (1 < 2 →
      (fuse_row 3 [8, 16, 32] 1)[2]? = some (some (seqLayers
        [.conv2d ([8, 16, 32].getD 2 0) ([8, 16, 32].getD 1 0) 1 1 0 false,
         .batchNorm ([8, 16, 32].getD 1 0), .upsample (2 ^ (2 - 1))])) ∧
      runShape (seqLayers
        [.conv2d ([8, 16, 32].getD 2 0) ([8, 16, 32].getD 1 0) 1 1 0 false,
         .batchNorm ([8, 16, 32].getD 1 0), .upsample (2 ^ (2 - 1))])
        ⟨1, [8, 16, 32].getD 2 0, 4, 4⟩ =
        some ⟨1, [8, 16, 32].getD 1 0, 4 * 2 ^ (2 - 1), 4 * 2 ^ (2 - 1)⟩) := by
  have h := fuse_layer_structure 3 [8, 16, 32] true 1 2 1 4 4
    (by decide) (by decide) (by decide) (by decide) (by decide)
  exact ⟨⟨by decide, by decide, by decide, by decide⟩, h.1, h.2.2.2.1, h.2.2.2.2.1⟩
